import Mathlib

/-
Verification of the CPU-load measurement core of `disk_cpu_load.py`.

The embedding models:
  * `ProcStat.current_stats` (the /proc/stat parser), with the outcome of the
    file read supplied as an explicit `Except` input, since opening and reading
    the pseudo-file is an IO action;
  * `ProcStat.get_total` (row sum lookup);
  * the evaluation section of `main` (lines 214-233 of the script), which
    derives the CPU-load percentage from two snapshots and a threshold.

Python integers are modelled as `Int`, the float division of
`(diff_used*100)/diff_total` as exact division in `ℚ`, and the Python
exceptions raised by the script as constructors of an explicit error type.
-/

namespace DiskCpuLoad

/-- Outcome of attempting to open and read the counter source, mirroring the
two exception classes the script catches around `open("/proc/stat")`:
`FileNotFoundError` and `PermissionError`. -/
inductive ReadErr where
  | fileNotFound : ReadErr
  | permissionDenied : ReadErr
  deriving DecidableEq

/-- The failure conditions the script can raise, one constructor per Python
exception class that can escape the modelled code:
  * `sourceUnavailable` models the re-raised `FileNotFoundError` /
    `PermissionError` (the spec's `SourceUnavailable`);
  * `malformedCounterRow` models the `ValueError` raised by `int(token)`
    on a non-numeric token (the spec's `MalformedCounterRow`);
  * `indexError` models `IndexError` from list indexing (`fields[0]` on an
    empty line, or `stats["cpu"][3]` on a short row);
  * `unknownLabel` models the `KeyError` from `self.stats[stat_type]`
    (the spec's `UnknownLabel`). -/
inductive Err where
  | sourceUnavailable : ReadErr → Err
  | malformedCounterRow : String → Err
  | indexError : Err
  | unknownLabel : String → Err
  deriving DecidableEq

/-- The snapshot's `stats` dict (`dict[str, list[int]]`), modelled as an
insertion-ordered association list with unique keys maintained by
`dictInsert`. -/
def Stats : Type := List (String × List Int)

/-- Python dict lookup `d[k]` (as an `Option`; `none` models `KeyError`). -/
def dictGet (s : Stats) (k : String) : Option (List Int) :=
  match s with
  | [] => none
  | (k', v) :: rest => if k' = k then some v else dictGet rest k

/-- Python dict assignment `d[k] = v`: overwrite in place if the key exists,
otherwise append at the end (insertion order preserved). -/
def dictInsert (s : Stats) (k : String) (v : List Int) : Stats :=
  match s with
  | [] => [(k, v)]
  | (k', v') :: rest =>
    if k' = k then (k', v) :: rest else (k', v') :: dictInsert rest k v

/-- Accumulator pass of the whitespace split: `cur` holds the reversed
characters of the token being scanned. -/
def wsSplitGo (cur : List Char) : List Char → List (List Char)
  | [] => if cur.isEmpty then [] else [cur.reverse]
  | c :: rest =>
    if c.isWhitespace then
      if cur.isEmpty then wsSplitGo [] rest
      else cur.reverse :: wsSplitGo [] rest
    else wsSplitGo (c :: cur) rest

/-- Model of `line.split()`, Python's whitespace split: the maximal runs of
non-whitespace characters, in order (so an empty or all-whitespace line
yields `[]`). -/
def pySplit (line : String) : List String :=
  (wsSplitGo [] line.toList).map (fun cs => String.mk cs)

/-- Value of an ASCII digit character. -/
def digitVal (c : Char) : Nat := c.toNat - 48

/-- Numeric value of a list of digit characters (most significant first). -/
def digitsVal (cs : List Char) : Nat :=
  cs.foldl (fun a c => a * 10 + digitVal c) 0

/-- Digit-part scanner of Python's `int()` grammar: digits, with single
underscores allowed between digits. `acc` is the value of the digits already
consumed. -/
def pyDigits : Nat → List Char → Option Nat
  | acc, [] => some acc
  | acc, c :: rest =>
    if c.isDigit then pyDigits (acc * 10 + digitVal c) rest
    else if c = '_' then
      match rest with
      | [] => none
      | d :: rest2 =>
        if d.isDigit then pyDigits ((acc * 10 + digitVal d)) rest2 else none
    else none

/-- The unsigned part of Python's `int()`: a non-empty digit sequence that
starts with a digit (so a leading underscore is rejected). -/
def pyIntCore (cs : List Char) : Option Nat :=
  match cs with
  | [] => none
  | c :: _ => if c.isDigit then pyDigits 0 cs else none

/-- Python's built-in `int(token)` on the whitespace-free ASCII tokens
produced by `str.split()`: an optional single `-` or `+` sign followed by a
digit sequence (underscores permitted between digits); `none` models the
`ValueError` raised on any other string. -/
def pyInt (t : String) : Option Int :=
  match t.toList with
  | [] => none
  | c :: rest =>
    if c = '-' then (pyIntCore rest).map (fun n => -(n : Int))
    else if c = '+' then (pyIntCore rest).map (fun n => (n : Int))
    else (pyIntCore (c :: rest)).map (fun n => (n : Int))

/-- Model of `[int(stat) for stat in stat_values]`: convert the value tokens of one
line left to right, aborting at the first token `int()` rejects with the
`ValueError` (modelled as `Err.malformedCounterRow`) for that token. -/
def parseVals : List String → Except Err (List Int)
  | [] => .ok []
  | t :: rest =>
    match pyInt t with
    | none => .error (.malformedCounterRow t)
    | some v =>
      match parseVals rest with
      | .error e => .error e
      | .ok vs => .ok (v :: vs)

/-- The parsing loop of `ProcStat.current_stats`: for each line, split it,
take `fields[0]` as the label (raising `IndexError` if the line has no
tokens), convert the remaining tokens to integers, and assign into the
`stats` dict. Any failure aborts the whole loop. -/
def pyParseGo (stats : Stats) : List String → Except Err Stats
  | [] => .ok stats
  | line :: rest =>
    match pySplit line with
    | [] => .error .indexError
    | label :: values =>
      match parseVals values with
      | .error e => .error e
      | .ok ints => pyParseGo (dictInsert stats label ints) rest

/-- Parse the full line-oriented content of the counter source, starting from
an empty `stats` dict, as `ProcStat.current_stats` does. -/
def pyParse (lines : List String) : Except Err Stats :=
  pyParseGo [] lines

/-- Model of `ProcStat.current_stats`: the read of `/proc/stat` either yields the
file's lines or one of the two environment errors; a failed read is re-raised
as the spec's `SourceUnavailable` condition, a successful read is parsed. -/
def current_stats (readResult : Except ReadErr (List String)) : Except Err Stats :=
  match readResult with
  | .error e => .error (.sourceUnavailable e)
  | .ok lines => pyParse lines

/-- Model of `ProcStat.get_total`: sum of the row values for `stat_type`; the
`KeyError` on an absent key is re-raised (the spec's `UnknownLabel`). -/
def get_total (s : Stats) (stat_type : String) : Except Err Int :=
  match dictGet s stat_type with
  | some values => .ok values.sum
  | none => .error (.unknownLabel stat_type)

/-- Result of the evaluation section of `main`: the computed load percentage
and the verdict of the threshold comparison (`pass` = the script does not
print the failure banner and exit 1). -/
structure LoadResult where
  loadPercent : ℚ
  passed : Bool
  deriving DecidableEq

/-- Lines 227-229 of the script:
`cpu_load = 0; if diff_total != 0: cpu_load = (diff_used*100)/diff_total`,
with Python's float division modelled as exact division in `ℚ`. -/
def loadOf (diffTotal diffUsed : Int) : ℚ :=
  if diffTotal ≠ 0 then ((diffUsed * 100 : Int) : ℚ) / ((diffTotal : Int) : ℚ)
  else 0

/-- The evaluation section of `main` (lines 214-233): totals via `get_total`,
idle values via `stats["cpu"][3]` (in Python's left-to-right evaluation order
for `end - init`), the three deltas, the load, and the verdict
`cpu_load > max_load` (failure on strict excess). Each Python exception is
propagated as the corresponding `Err`. -/
def evaluate (initStats endStats : Stats) (maxLoad : ℚ) : Except Err LoadResult :=
  match get_total initStats "cpu" with
  | .error e => .error e
  | .ok initTotal =>
    match get_total endStats "cpu" with
    | .error e => .error e
    | .ok endTotal =>
      match dictGet endStats "cpu" with
      | none => .error (.unknownLabel "cpu")
      | some endRow =>
        match endRow.get? 3 with
        | none => .error .indexError
        | some endIdle =>
          match dictGet initStats "cpu" with
          | none => .error (.unknownLabel "cpu")
          | some initRow =>
            match initRow.get? 3 with
            | none => .error .indexError
            | some initIdle =>
              let diffIdle := endIdle - initIdle
              let diffTotal := endTotal - initTotal
              let diffUsed := diffTotal - diffIdle
              let cpuLoad := loadOf diffTotal diffUsed
              .ok { loadPercent := cpuLoad, passed := !(decide (maxLoad < cpuLoad)) }

/-- Spec-side predicate, from the spec's words: a token that is a valid
non-negative decimal integer, i.e. a non-empty string of decimal digits.
Used to state claims that speak of "non-negative integer" tokens, to be
compared with what `pyInt` (the code's `int()`) actually accepts. -/
def specNonNegIntToken (t : String) : Bool :=
  !t.toList.isEmpty && t.toList.all (fun c => c.isDigit)

/-- Decimal digit string of a natural number, most significant digit first,
no leading zeros (the digits of Python's `str(n)`). -/
def natDigits (n : Nat) : List Char :=
  if _h : n < 10 then [Nat.digitChar n]
  else natDigits (n / 10) ++ [Nat.digitChar (n % 10)]
  termination_by n
  decreasing_by
    exact Nat.div_lt_self (by omega) (by omega)

/-- Modelled from the spec: re-serializing a counter value, as Python's
`str(v)` renders an integer. Serialization is not part of the source (which
only reads counters); it is the spec's round-trip test operation. -/
def intSerialize (v : Int) : String :=
  if v < 0 then String.mk ('-' :: natDigits (-v).toNat)
  else String.mk (natDigits v.toNat)

/-- Modelled from the spec: re-serializing a parsed row in field order. -/
def serializeRow (row : List Int) : List String :=
  row.map intSerialize

/-- Numeric value denoted by a digit token. -/
def tokNat (t : String) : Nat := digitsVal t.toList

/-! ## Helper lemmas -/

/-- Evaluation of `evaluate` on snapshots whose "cpu" rows exist and have a 4th field
reduces to the delta computation of lines 220-229 of the script. -/
theorem evaluate_eq_of (a b : Stats) (ra rb : List Int) (ia ib : Int) (m : ℚ)
    (ha : dictGet a "cpu" = some ra) (hb : dictGet b "cpu" = some rb)
    (hia : ra.get? 3 = some ia) (hib : rb.get? 3 = some ib) :
    evaluate a b m =
      .ok { loadPercent := loadOf (rb.sum - ra.sum) ((rb.sum - ra.sum) - (ib - ia)),
            passed := !(decide (m < loadOf (rb.sum - ra.sum) ((rb.sum - ra.sum) - (ib - ia)))) } := by
  unfold evaluate get_total
  rw [ha, hb]
  dsimp only
  rw [hia, hib]

/-- A successful token conversion exists for every token of a successfully
converted row. -/
theorem parseVals_ok_mem (vs : List String) (is : List Int)
    (h : parseVals vs = .ok is) : ∀ t ∈ vs, ∃ v, pyInt t = some v := by
  induction vs generalizing is with
  | nil => intro t ht; cases ht
  | cons t0 rest ih =>
    intro t ht
    unfold parseVals at h
    cases hp : pyInt t0 with
    | none => rw [hp] at h; cases h
    | some v =>
      rw [hp] at h
      cases hr : parseVals rest with
      | error e => rw [hr] at h; cases h
      | ok vs' =>
        cases ht with
        | head => exact ⟨v, hp⟩
        | tail _ hmem => exact ih vs' hr t hmem

/-- A failed row conversion always reports a `MalformedCounterRow` with one
of the row's tokens, a token `int()` rejects. -/
theorem parseVals_err_shape (vs : List String) (e : Err)
    (h : parseVals vs = .error e) :
    ∃ t ∈ vs, e = .malformedCounterRow t ∧ pyInt t = none := by
  induction vs with
  | nil => cases h
  | cons t0 rest ih =>
    unfold parseVals at h
    cases hp : pyInt t0 with
    | none =>
      rw [hp] at h
      cases h
      exact ⟨t0, List.mem_cons_self t0 rest, rfl, hp⟩
    | some v =>
      rw [hp] at h
      cases hr : parseVals rest with
      | error e' =>
        rw [hr] at h
        cases h
        obtain ⟨t, ht, he, hn⟩ := ih hr
        exact ⟨t, List.mem_cons_of_mem t0 ht, he, hn⟩
      | ok vs' => rw [hr] at h; cases h

/-- If some token of a row is rejected by `int()`, the row conversion fails
with a `MalformedCounterRow` naming a rejected token. -/
theorem parseVals_err_exists (vs : List String)
    (h : ∃ t ∈ vs, pyInt t = none) :
    ∃ t, parseVals vs = .error (.malformedCounterRow t) ∧ pyInt t = none := by
  cases he : parseVals vs with
  | error e =>
    obtain ⟨t, _, hshape, hn⟩ := parseVals_err_shape vs e he
    exact ⟨t, congrArg Except.error hshape, hn⟩
  | ok is =>
    obtain ⟨t, ht, hn⟩ := h
    obtain ⟨v, hv⟩ := parseVals_ok_mem vs is he t ht
    rw [hv] at hn
    cases hn

/-- Successful row conversion preserves the number of fields. -/
theorem parseVals_length (vs : List String) (is : List Int)
    (h : parseVals vs = .ok is) : is.length = vs.length := by
  induction vs generalizing is with
  | nil => cases h; rfl
  | cons t0 rest ih =>
    unfold parseVals at h
    cases hp : pyInt t0 with
    | none => rw [hp] at h; cases h
    | some v =>
      rw [hp] at h
      cases hr : parseVals rest with
      | error e => rw [hr] at h; cases h
      | ok vs' =>
        rw [hr] at h
        cases h
        simp [ih vs' hr]

/-- Looking up the key just assigned returns the assigned row. -/
theorem dictGet_insert_self (s : Stats) (k : String) (v : List Int) :
    dictGet (dictInsert s k v) k = some v := by
  induction s with
  | nil => simp [dictInsert, dictGet]
  | cons p rest ih =>
    obtain ⟨k', v'⟩ := p
    by_cases hk : k' = k
    · simp [dictInsert, dictGet, hk]
    · simp [dictInsert, dictGet, hk, ih]

/-- Assignment to one key leaves lookups of other keys unchanged. -/
theorem dictGet_insert_ne (s : Stats) (k k' : String) (v : List Int)
    (h : k' ≠ k) : dictGet (dictInsert s k v) k' = dictGet s k' := by
  induction s with
  | nil =>
    simp [dictInsert, dictGet, Ne.symm h]
  | cons p rest ih =>
    obtain ⟨k'', v''⟩ := p
    by_cases hk : k'' = k
    · subst hk
      simp [dictInsert, dictGet, Ne.symm h]
    · simp [dictInsert, dictGet, hk, ih]

/-- Any row found after an assignment is either the assigned row or was
already present. -/
theorem dictGet_insert_cases (s : Stats) (k k' : String) (v row : List Int)
    (h : dictGet (dictInsert s k v) k' = some row) :
    row = v ∨ dictGet s k' = some row := by
  by_cases hk : k' = k
  · subst hk
    rw [dictGet_insert_self] at h
    exact Or.inl (Option.some.inj h).symm
  · rw [dictGet_insert_ne s k k' v hk] at h
    exact Or.inr h

/-- A successful parse leaves the lookup of any label that heads no line of
the input unchanged from the starting dict. -/
theorem pyParseGo_preserve (lines : List String) :
    ∀ (stats s : Stats), pyParseGo stats lines = .ok s →
      ∀ k, (∀ l ∈ lines, (pySplit l).head? ≠ some k) →
        dictGet s k = dictGet stats k := by
  induction lines with
  | nil => intro stats s h k _; cases h; rfl
  | cons l0 rest ih =>
    intro stats s h k hk
    unfold pyParseGo at h
    cases hs : pySplit l0 with
    | nil => rw [hs] at h; cases h
    | cons label values =>
      rw [hs] at h
      dsimp only at h
      cases hv : parseVals values with
      | error e => rw [hv] at h; cases h
      | ok ints =>
        rw [hv] at h
        have hlab : label ≠ k := by
          intro he
          exact hk l0 (List.mem_cons_self l0 rest) (by rw [hs, he]; rfl)
        rw [ih (dictInsert stats label ints) s h k
          (fun l hl => hk l (List.mem_cons_of_mem l0 hl))]
        exact dictGet_insert_ne stats label k ints (fun he => hlab he.symm)

/-- A successful parse implies every line had a label and every remaining
token was accepted by `int()`. -/
theorem pyParseGo_ok_tokens (lines : List String) :
    ∀ (stats s : Stats), pyParseGo stats lines = .ok s →
      ∀ l ∈ lines, ∀ t ∈ (pySplit l).tail, ∃ v, pyInt t = some v := by
  induction lines with
  | nil => intro stats s _ l hl; cases hl
  | cons l0 rest ih =>
    intro stats s h l hl t ht
    unfold pyParseGo at h
    cases hs : pySplit l0 with
    | nil => rw [hs] at h; cases h
    | cons label values =>
      rw [hs] at h
      dsimp only at h
      cases hv : parseVals values with
      | error e => rw [hv] at h; cases h
      | ok ints =>
        rw [hv] at h
        cases hl with
        | head =>
          rw [hs] at ht
          exact parseVals_ok_mem values ints hv t ht
        | tail _ hmem => exact ih (dictInsert stats label ints) s h l hmem t ht

/-- If every line has a label token and some line has a value token rejected
by `int()`, the parsing loop fails with a `MalformedCounterRow`, whatever the
starting dict. -/
theorem pyParseGo_malformed (lines : List String) :
    ∀ stats : Stats, (∀ l ∈ lines, pySplit l ≠ []) →
      (∃ l ∈ lines, ∃ t ∈ (pySplit l).tail, pyInt t = none) →
      ∃ t, pyParseGo stats lines = .error (.malformedCounterRow t) ∧ pyInt t = none := by
  induction lines with
  | nil =>
    intro stats _ hbad
    obtain ⟨l, hl, _⟩ := hbad
    cases hl
  | cons l0 rest ih =>
    intro stats hne hbad
    cases hsp : pySplit l0 with
    | nil => exact absurd hsp (hne l0 (List.mem_cons_self l0 rest))
    | cons label values =>
      cases hv : parseVals values with
      | error e =>
        obtain ⟨t, _, he, hn⟩ := parseVals_err_shape values e hv
        refine ⟨t, ?_, hn⟩
        unfold pyParseGo
        rw [hsp]
        dsimp only
        rw [hv, he]
      | ok ints =>
        obtain ⟨l, hl, t, ht, hn⟩ := hbad
        cases hl with
        | head =>
          rw [hsp] at ht
          obtain ⟨v, hvt⟩ := parseVals_ok_mem values ints hv t ht
          rw [hvt] at hn
          cases hn
        | tail _ hmem =>
          obtain ⟨t', hgo', hn'⟩ := ih (dictInsert stats label ints)
            (fun l' hl' => hne l' (List.mem_cons_of_mem l0 hl'))
            ⟨l, hmem, t, ht, hn⟩
          refine ⟨t', ?_, hn'⟩
          unfold pyParseGo
          rw [hsp]
          dsimp only
          rw [hv]
          exact hgo'

/-- If every line has a label token, the parsing loop never raises the
label-extraction `IndexError`, whatever the starting dict. -/
theorem pyParseGo_no_indexError (lines : List String) :
    ∀ stats : Stats, (∀ l ∈ lines, pySplit l ≠ []) →
      pyParseGo stats lines ≠ .error Err.indexError := by
  induction lines with
  | nil =>
    intro stats _ h
    unfold pyParseGo at h
    cases h
  | cons l0 rest ih =>
    intro stats hne h
    unfold pyParseGo at h
    cases hsp : pySplit l0 with
    | nil => exact absurd hsp (hne l0 (List.mem_cons_self l0 rest))
    | cons label values =>
      rw [hsp] at h
      dsimp only at h
      cases hv : parseVals values with
      | error e =>
        rw [hv] at h
        obtain ⟨t, _, he, _⟩ := parseVals_err_shape values e hv
        rw [he] at h
        cases h
      | ok ints =>
        rw [hv] at h
        exact ih (dictInsert stats label ints)
          (fun l' hl' => hne l' (List.mem_cons_of_mem l0 hl')) h

/-- The parsing loop keeps every row non-empty when the starting dict has
only non-empty rows and every line has at least two tokens. -/
theorem pyParseGo_rows_nonempty (lines : List String) :
    ∀ stats s : Stats, (∀ lab row, dictGet stats lab = some row → row ≠ []) →
      (∀ l ∈ lines, 2 ≤ (pySplit l).length) →
      pyParseGo stats lines = .ok s →
      ∀ lab row, dictGet s lab = some row → row ≠ [] := by
  induction lines with
  | nil =>
    intro stats s hinv _ h
    unfold pyParseGo at h
    cases h
    exact hinv
  | cons l0 rest ih =>
    intro stats s hinv hlen h
    unfold pyParseGo at h
    cases hsp : pySplit l0 with
    | nil => rw [hsp] at h; cases h
    | cons label values =>
      rw [hsp] at h
      dsimp only at h
      cases hv : parseVals values with
      | error e => rw [hv] at h; cases h
      | ok ints =>
        rw [hv] at h
        refine ih (dictInsert stats label ints) s ?_
          (fun l' hl' => hlen l' (List.mem_cons_of_mem l0 hl')) h
        intro lab row hget
        cases dictGet_insert_cases stats label lab ints row hget with
        | inl hrow =>
          have h2 : 2 ≤ (pySplit l0).length := hlen l0 (List.mem_cons_self l0 rest)
          rw [hsp] at h2
          have hlv : ints.length = values.length := parseVals_length values ints hv
          have hpos : 0 < ints.length := by
            simp only [List.length_cons] at h2
            omega
          rw [hrow]
          exact List.ne_nil_of_length_pos hpos
        | inr hold => exact hinv lab row hold

/-- On a pure digit sequence `pyDigits` accumulates the decimal value. -/
theorem pyDigits_digits (cs : List Char) :
    ∀ acc : Nat, (∀ c ∈ cs, c.isDigit = true) →
      pyDigits acc cs = some (cs.foldl (fun a c => a * 10 + digitVal c) acc) := by
  induction cs with
  | nil => intro acc _; rfl
  | cons c rest ih =>
    intro acc h
    have hc : c.isDigit = true := h c (List.mem_cons_self c rest)
    unfold pyDigits
    rw [if_pos hc, ih (acc * 10 + digitVal c)
      (fun c' hc' => h c' (List.mem_cons_of_mem c hc'))]
    rfl

/-- A digit character is neither a minus nor a plus sign. -/
theorem isDigit_not_sign (c : Char) (h : c.isDigit = true) :
    c ≠ '-' ∧ c ≠ '+' := by
  constructor
  · intro he
    subst he
    exact absurd h (by decide)
  · intro he
    subst he
    exact absurd h (by decide)

/-- Python's `int()` accepts every non-empty all-digit token, returning its decimal
value. -/
theorem pyInt_digit (t : String) (h : specNonNegIntToken t = true) :
    pyInt t = some ((tokNat t : Nat) : Int) := by
  unfold specNonNegIntToken at h
  rw [Bool.and_eq_true] at h
  obtain ⟨hne, hall⟩ := h
  unfold pyInt tokNat digitsVal
  cases hcs : t.toList with
  | nil => rw [hcs] at hne; exact absurd hne (by decide)
  | cons c rest =>
    rw [hcs] at hall
    rw [List.all_eq_true] at hall
    have hcd : c.isDigit = true := hall c (List.mem_cons_self c rest)
    obtain ⟨hm, hp⟩ := isDigit_not_sign c hcd
    dsimp only
    rw [if_neg hm, if_neg hp]
    unfold pyIntCore
    dsimp only
    rw [if_pos hcd]
    rw [pyDigits_digits (c :: rest) 0 (fun c' hc' => hall c' hc')]
    rfl

/-- A row of all-digit tokens converts to the list of their decimal
values. -/
theorem parseVals_digits (vs : List String)
    (h : ∀ t ∈ vs, specNonNegIntToken t = true) :
    parseVals vs = .ok (vs.map (fun t => ((tokNat t : Nat) : Int))) := by
  induction vs with
  | nil => rfl
  | cons t rest ih =>
    unfold parseVals
    rw [pyInt_digit t (h t (List.mem_cons_self t rest))]
    dsimp only
    rw [ih (fun t' ht' => h t' (List.mem_cons_of_mem t ht'))]
    rfl

/-- Digit characters of decimal digits. -/
theorem digitChar_isDigit : ∀ d : Nat, d < 10 →
    (Nat.digitChar d).isDigit = true := by decide

/-- The map `digitVal` inverts `Nat.digitChar` on decimal digits. -/
theorem digitVal_digitChar : ∀ d : Nat, d < 10 →
    digitVal (Nat.digitChar d) = d := by decide

/-- The decimal rendering of a natural number is a non-empty digit string
denoting the number itself. -/
theorem natDigits_spec (n : Nat) :
    natDigits n ≠ [] ∧ (∀ c ∈ natDigits n, c.isDigit = true) ∧
      digitsVal (natDigits n) = n := by
  induction n using Nat.strong_induction_on with
  | _ n ih =>
    by_cases h : n < 10
    · rw [natDigits, dif_pos h]
      refine ⟨by simp, ?_, ?_⟩
      · intro c hc
        rw [List.mem_singleton] at hc
        subst hc
        exact digitChar_isDigit n h
      · show (0 : Nat) * 10 + digitVal (Nat.digitChar n) = n
        rw [digitVal_digitChar n h]
        omega
    · rw [natDigits, dif_neg h]
      have h10 : n / 10 < n := Nat.div_lt_self (by omega) (by omega)
      obtain ⟨hne, hdig, hval⟩ := ih (n / 10) h10
      refine ⟨by simp, ?_, ?_⟩
      · intro c hc
        rw [List.mem_append] at hc
        cases hc with
        | inl hl => exact hdig c hl
        | inr hr =>
          rw [List.mem_singleton] at hr
          subst hr
          exact digitChar_isDigit (n % 10) (Nat.mod_lt n (by omega))
      · unfold digitsVal
        rw [List.foldl_append]
        unfold digitsVal at hval
        rw [hval]
        show n / 10 * 10 + digitVal (Nat.digitChar (n % 10)) = n
        rw [digitVal_digitChar (n % 10) (Nat.mod_lt n (by omega))]
        omega

/-- The character list of `String.mk` is the underlying list. -/
theorem toList_mk (cs : List Char) : (String.mk cs).toList = cs := rfl

/-- Serializing a non-negative counter value and re-reading it with `int()`
recovers the value. -/
theorem pyInt_intSerialize_ofNat (n : Nat) :
    pyInt (intSerialize (n : Int)) = some ((n : Nat) : Int) := by
  unfold intSerialize
  rw [if_neg (not_lt.mpr (Int.natCast_nonneg n))]
  rw [Int.toNat_natCast]
  obtain ⟨hne, hdig, hval⟩ := natDigits_spec n
  unfold pyInt
  rw [toList_mk]
  cases hcs : natDigits n with
  | nil => exact absurd hcs hne
  | cons c rest =>
    rw [hcs] at hdig hval
    have hcd : c.isDigit = true := hdig c (List.mem_cons_self c rest)
    obtain ⟨hm, hp⟩ := isDigit_not_sign c hcd
    dsimp only
    rw [if_neg hm, if_neg hp]
    unfold pyIntCore
    dsimp only
    rw [if_pos hcd]
    rw [pyDigits_digits (c :: rest) 0 (fun c' hc' => hdig c' hc')]
    unfold digitsVal at hval
    rw [hval]
    rfl

/-- Parsing a well-formed source (every line splits into a label and
all-digit value tokens; the labels are pairwise distinct) succeeds, maps
each label to its line's decimal values, and leaves other labels at their
value in the starting dict. -/
theorem pyParseGo_roundtrip (lines : List String) :
    ∀ stats : Stats,
      (∀ l ∈ lines, ∃ lab toks, pySplit l = lab :: toks ∧
        ∀ t ∈ toks, specNonNegIntToken t = true) →
      ((lines.map (fun l => (pySplit l).head?)).Nodup) →
      ∃ s : Stats, pyParseGo stats lines = .ok s ∧
        (∀ l ∈ lines, ∀ lab toks, pySplit l = lab :: toks →
          dictGet s lab = some (toks.map (fun t => ((tokNat t : Nat) : Int)))) ∧
        (∀ k, (∀ l ∈ lines, (pySplit l).head? ≠ some k) →
          dictGet s k = dictGet stats k) := by
  induction lines with
  | nil =>
    intro stats _ _
    exact ⟨stats, rfl, fun l hl => absurd hl (List.not_mem_nil l), fun k _ => rfl⟩
  | cons l0 rest ih =>
    intro stats hwf hnd
    obtain ⟨lab, toks, hsp, hdig⟩ := hwf l0 (List.mem_cons_self l0 rest)
    have hv := parseVals_digits toks hdig
    rw [List.map_cons, List.nodup_cons] at hnd
    obtain ⟨hnotin, hnd'⟩ := hnd
    obtain ⟨s, hgo, hmem, hpres⟩ :=
      ih (dictInsert stats lab (toks.map (fun t => ((tokNat t : Nat) : Int))))
        (fun l hl => hwf l (List.mem_cons_of_mem l0 hl)) hnd'
    have hstep : pyParseGo stats (l0 :: rest) =
        .ok s := by
      unfold pyParseGo
      rw [hsp]
      dsimp only
      rw [hv]
      exact hgo
    refine ⟨s, hstep, ?_, ?_⟩
    · intro l hl lab' toks' hsp'
      cases hl with
      | head =>
        rw [hsp] at hsp'
        obtain ⟨he1, he2⟩ : lab = lab' ∧ toks = toks' := by
          exact ⟨(List.cons.inj hsp').1, (List.cons.inj hsp').2⟩
        subst he1
        subst he2
        have hh : some lab ∉ List.map (fun l => (pySplit l).head?) rest := by
          rw [hsp] at hnotin
          exact hnotin
        have hnot : ∀ l' ∈ rest, (pySplit l').head? ≠ some lab := by
          intro l' hl' he
          exact hh (he ▸ List.mem_map_of_mem (fun l => (pySplit l).head?) hl')
        rw [hpres lab hnot]
        exact dictGet_insert_self stats lab _
      | tail _ hmem' => exact hmem l hmem' lab' toks' hsp'
    · intro k hk
      have hlab : lab ≠ k := by
        intro he
        exact hk l0 (List.mem_cons_self l0 rest) (by rw [hsp, he]; rfl)
      rw [hpres k (fun l hl => hk l (List.mem_cons_of_mem l0 hl))]
      exact dictGet_insert_ne stats lab k _ (fun he => hlab he.symm)

/-! ## Claims -/

/-- C1: for every pair of snapshots whose "cpu" row has at least 4 fields,
`evaluate` computes `deltaTotal = totalAfter - totalBefore`,
`deltaIdle = idleAfter - idleBefore` (field 3 of the "cpu" row),
`deltaUsed = deltaTotal - deltaIdle`, and when `deltaTotal` is nonzero
returns `loadPercent = (deltaUsed * 100) / deltaTotal` by exact
(non-truncating) division. -/
theorem evaluate_load_formula (a b : Stats) (ra rb : List Int) (ia ib : Int) (m : ℚ)
    (ha : dictGet a "cpu" = some ra) (hb : dictGet b "cpu" = some rb)
    (hia : ra.get? 3 = some ia) (hib : rb.get? 3 = some ib)
    (hdt : rb.sum - ra.sum ≠ 0) :
    ∃ r : LoadResult, evaluate a b m = .ok r ∧
      r.loadPercent =
        ((((rb.sum - ra.sum) - (ib - ia)) * 100 : Int) : ℚ) / ((rb.sum - ra.sum : Int) : ℚ) := by
  refine ⟨_, evaluate_eq_of a b ra rb ia ib m ha hb hia hib, ?_⟩
  simp only [loadOf, if_pos hdt]

/-- C1 witness (Scenario A): before row `100 0 50 800 0 0 0 0 0 0`, after row
`110 0 60 840 0 0 0 0 0 0`: totals 950 and 1010, so `deltaTotal = 60`,
`deltaIdle = 840 - 800 = 40`, `deltaUsed = 20`, and
`loadPercent = 2000/60 = 100/3 ≈ 33.33`. -/
theorem evaluate_load_formula_scenarioA :
    ∃ r : LoadResult,
      evaluate [("cpu", [100, 0, 50, 800, 0, 0, 0, 0, 0, 0])]
          [("cpu", [110, 0, 60, 840, 0, 0, 0, 0, 0, 0])] 30 = .ok r ∧
      r.loadPercent = 100 / 3 := by
  obtain ⟨r, h1, h2⟩ :=
    evaluate_load_formula [("cpu", [100, 0, 50, 800, 0, 0, 0, 0, 0, 0])]
      [("cpu", [110, 0, 60, 840, 0, 0, 0, 0, 0, 0])]
      [100, 0, 50, 800, 0, 0, 0, 0, 0, 0] [110, 0, 60, 840, 0, 0, 0, 0, 0, 0]
      800 840 30 rfl rfl rfl rfl (by decide)
  refine ⟨r, h1, ?_⟩
  rw [h2]
  norm_num

/-- C2: whenever `evaluate` produces a verdict, the verdict is `pass` exactly
when `loadPercent ≤ thresholdPercent` (equality passes; only strict
`loadPercent > thresholdPercent` fails), and re-running `evaluate` with the
threshold set to the computed `loadPercent` yields `pass = true`. -/
theorem evaluate_threshold_pass (a b : Stats) (ra rb : List Int) (ia ib : Int) (m : ℚ)
    (ha : dictGet a "cpu" = some ra) (hb : dictGet b "cpu" = some rb)
    (hia : ra.get? 3 = some ia) (hib : rb.get? 3 = some ib) :
    ∃ r : LoadResult, evaluate a b m = .ok r ∧
      (r.passed = true ↔ r.loadPercent ≤ m) ∧
      evaluate a b r.loadPercent = .ok { loadPercent := r.loadPercent, passed := true } := by
  refine ⟨_, evaluate_eq_of a b ra rb ia ib m ha hb hia hib, ?_, ?_⟩
  · simp [not_lt]
  · rw [evaluate_eq_of a b ra rb ia ib _ ha hb hia hib]
    simp [lt_irrefl]

/-- C2 witness: on the Scenario A snapshots with threshold 30 the verdict
logic is as claimed, concretely instantiated. -/
theorem evaluate_threshold_pass_inst :
    ∃ r : LoadResult,
      evaluate [("cpu", [100, 0, 50, 800, 0, 0, 0, 0, 0, 0])]
          [("cpu", [110, 0, 60, 840, 0, 0, 0, 0, 0, 0])] 30 = .ok r ∧
      (r.passed = true ↔ r.loadPercent ≤ 30) ∧
      evaluate [("cpu", [100, 0, 50, 800, 0, 0, 0, 0, 0, 0])]
          [("cpu", [110, 0, 60, 840, 0, 0, 0, 0, 0, 0])] r.loadPercent =
        .ok { loadPercent := r.loadPercent, passed := true } :=
  evaluate_threshold_pass _ _
    [100, 0, 50, 800, 0, 0, 0, 0, 0, 0] [110, 0, 60, 840, 0, 0, 0, 0, 0, 0]
    800 840 30 rfl rfl rfl rfl

/-- C3 counterexample: a pair of identical snapshots whose "cpu" row has
fewer than 4 fields. Both totals are equal, so `deltaTotal = 0`, yet
`evaluate` fails with the `IndexError` of `stats["cpu"][3]` instead of
returning `loadPercent = 0`: the claim's "does not fail, regardless of the
counter values" is false for "cpu" rows shorter than 4 fields. -/
theorem evaluate_zero_delta_shortrow_fails :
    evaluate [("cpu", [100, 0, 50])] [("cpu", [100, 0, 50])] 30 =
      .error Err.indexError := rfl

/-- C3 (amended): for every pair of snapshots whose "cpu" rows have at least
4 fields, if `deltaTotal = 0` then `evaluate` succeeds with
`loadPercent = 0` — the zero-delta case is a defined result, not a division
by zero. -/
theorem evaluate_zero_delta (a b : Stats) (ra rb : List Int) (ia ib : Int) (m : ℚ)
    (ha : dictGet a "cpu" = some ra) (hb : dictGet b "cpu" = some rb)
    (hia : ra.get? 3 = some ia) (hib : rb.get? 3 = some ib)
    (hdt : rb.sum - ra.sum = 0) :
    ∃ r : LoadResult, evaluate a b m = .ok r ∧ r.loadPercent = 0 := by
  refine ⟨_, evaluate_eq_of a b ra rb ia ib m ha hb hia hib, ?_⟩
  simp only [loadOf, hdt]
  norm_num

/-- C3 witness: two identical full 10-field snapshots give `loadPercent = 0`
without failing. -/
theorem evaluate_zero_delta_inst :
    ∃ r : LoadResult,
      evaluate [("cpu", [100, 0, 50, 800, 0, 0, 0, 0, 0, 0])]
          [("cpu", [100, 0, 50, 800, 0, 0, 0, 0, 0, 0])] 30 = .ok r ∧
      r.loadPercent = 0 :=
  evaluate_zero_delta _ _
    [100, 0, 50, 800, 0, 0, 0, 0, 0, 0] [100, 0, 50, 800, 0, 0, 0, 0, 0, 0]
    800 800 30 rfl rfl rfl rfl (by decide)

/-- C4 counterexample: before row `[10, 0, 0, 0]` (total 10, idle 0), after
row `[0, 0, 0, 15]` (total 15, idle 15). The claim's hypotheses hold:
`totalAfter = 15 ≥ 10 = totalBefore`, `idleAfter = 15 ≥ 0 = idleBefore`,
`deltaTotal = 5 > 0`. Yet `deltaUsed = 5 - 15 = -10`, so
`loadPercent = -1000/5 = -200`, violating `0 ≤ loadPercent`. -/
theorem evaluate_load_negative_example :
    get_total [("cpu", [10, 0, 0, 0])] "cpu" = .ok 10 ∧
    get_total [("cpu", [0, 0, 0, 15])] "cpu" = .ok 15 ∧
    ∃ r : LoadResult,
      evaluate [("cpu", [10, 0, 0, 0])] [("cpu", [0, 0, 0, 15])] 30 = .ok r ∧
      r.loadPercent = -200 := by
  refine ⟨rfl, rfl, ?_⟩
  refine ⟨_, evaluate_eq_of _ _ [10, 0, 0, 0] [0, 0, 0, 15] 0 15 30 rfl rfl rfl rfl, ?_⟩
  norm_num [loadOf]

/-- C4 (amended): for every two snapshots with "cpu" rows of at least 4
fields such that `totalAfter ≥ totalBefore`, `idleAfter ≥ idleBefore`,
`deltaTotal > 0` and additionally `deltaIdle ≤ deltaTotal` (equivalently
`deltaUsed ≥ 0`; this extra hypothesis is what the counterexample forces),
the returned `loadPercent` satisfies `0 ≤ loadPercent ≤ 100`. -/
theorem evaluate_load_bounds (a b : Stats) (ra rb : List Int) (ia ib : Int) (m : ℚ)
    (ha : dictGet a "cpu" = some ra) (hb : dictGet b "cpu" = some rb)
    (hia : ra.get? 3 = some ia) (hib : rb.get? 3 = some ib)
    (htot : ra.sum ≤ rb.sum) (hidle : ia ≤ ib)
    (hdt : 0 < rb.sum - ra.sum) (hused : ib - ia ≤ rb.sum - ra.sum) :
    ∃ r : LoadResult, evaluate a b m = .ok r ∧
      0 ≤ r.loadPercent ∧ r.loadPercent ≤ 100 := by
  refine ⟨_, evaluate_eq_of a b ra rb ia ib m ha hb hia hib, ?_, ?_⟩
  · simp only [loadOf, if_pos (show rb.sum - ra.sum ≠ 0 by omega)]
    apply div_nonneg
    · have h0 : (0 : Int) ≤ (rb.sum - ra.sum - (ib - ia)) * 100 := by nlinarith
      exact_mod_cast h0
    · have h1 : (0 : Int) ≤ rb.sum - ra.sum := by omega
      exact_mod_cast h1
  · simp only [loadOf, if_pos (show rb.sum - ra.sum ≠ 0 by omega)]
    rw [div_le_iff₀ (by exact_mod_cast hdt)]
    have h2 : (rb.sum - ra.sum - (ib - ia)) * 100 ≤ 100 * (rb.sum - ra.sum) := by nlinarith
    exact_mod_cast h2

/-- C4 witness: on the Scenario A snapshots all hypotheses hold
(`950 ≤ 1010`, `800 ≤ 840`, `0 < 60`, `40 ≤ 60`) and the load lies in
`[0, 100]`. -/
theorem evaluate_load_bounds_inst :
    ∃ r : LoadResult,
      evaluate [("cpu", [100, 0, 50, 800, 0, 0, 0, 0, 0, 0])]
          [("cpu", [110, 0, 60, 840, 0, 0, 0, 0, 0, 0])] 30 = .ok r ∧
      0 ≤ r.loadPercent ∧ r.loadPercent ≤ 100 :=
  evaluate_load_bounds _ _
    [100, 0, 50, 800, 0, 0, 0, 0, 0, 0] [110, 0, 60, 840, 0, 0, 0, 0, 0, 0]
    800 840 30 rfl rfl rfl rfl (by decide) (by decide) (by decide) (by decide)

/-- C5 counterexample: the token `-5` is not a valid non-negative integer,
yet `parse` accepts the line `cpu -5 10` and returns a snapshot — Python's
`int()` accepts signed integers, so an invalid-as-non-negative token does
not make the parse fail with `MalformedCounterRow` as the claim states. -/
theorem parse_accepts_negative_token :
    specNonNegIntToken "-5" = false ∧
    pyParse ["cpu -5 10"] = .ok [("cpu", [-5, 10])] :=
  ⟨rfl, rfl⟩

/-- C5 (amended): for every input whose lines each have at least one token,
if some line has a remaining (non-label) token rejected by `int()` (an
optionally signed decimal integer is accepted, anything else rejected), the
parse fails with the `MalformedCounterRow` condition carrying a rejected
token, and no snapshot is returned. -/
theorem parse_malformed_aborts (lines : List String)
    (hne : ∀ l ∈ lines, pySplit l ≠ [])
    (hbad : ∃ l ∈ lines, ∃ t ∈ (pySplit l).tail, pyInt t = none) :
    ∃ t, pyParse lines = .error (.malformedCounterRow t) ∧ pyInt t = none :=
  pyParseGo_malformed lines [] hne hbad

/-- C5 witness (Scenario B): the source line `cpu abc 10 20` makes the parse
fail with `MalformedCounterRow`, no snapshot produced. -/
theorem parse_malformed_aborts_inst :
    ∃ t, pyParse ["cpu abc 10 20"] = .error (.malformedCounterRow t) ∧
      pyInt t = none :=
  parse_malformed_aborts ["cpu abc 10 20"] (by decide) (by decide)

/-- C6: `get_total` returns the sum of the row when the label is present and
fails with `UnknownLabel` when absent; `evaluate` propagates the same
condition when either snapshot lacks a "cpu" row; and the lookup is pure, so
two calls on the same snapshot and label return the same value. -/
theorem get_total_contract :
    (∀ (s : Stats) (l : String) (row : List Int),
        dictGet s l = some row → get_total s l = .ok row.sum) ∧
    (∀ (s : Stats) (l : String),
        dictGet s l = none → get_total s l = .error (.unknownLabel l)) ∧
    (∀ (s : Stats) (l : String), get_total s l = get_total s l) ∧
    (∀ (a b : Stats) (m : ℚ),
        dictGet a "cpu" = none → evaluate a b m = .error (.unknownLabel "cpu")) ∧
    (∀ (a b : Stats) (m : ℚ) (ra : List Int),
        dictGet a "cpu" = some ra → dictGet b "cpu" = none →
        evaluate a b m = .error (.unknownLabel "cpu")) := by
  refine ⟨?_, ?_, fun s l => rfl, ?_, ?_⟩
  · intro s l row h
    unfold get_total
    rw [h]
  · intro s l h
    unfold get_total
    rw [h]
  · intro a b m h
    unfold evaluate get_total
    rw [h]
  · intro a b m ra ha hb
    unfold evaluate get_total
    rw [ha, hb]

/-- C6 witness: concrete instances of each clause — a present label sums,
an absent label fails, and evaluate propagates the missing-"cpu" condition
from either snapshot. -/
theorem get_total_contract_inst :
    get_total [("cpu", [100, 0, 50, 800])] "cpu" =
      .ok ([100, 0, 50, 800] : List Int).sum ∧
    get_total [("intr", [5])] "cpu" = .error (.unknownLabel "cpu") ∧
    evaluate [("intr", [5])] [("cpu", [1, 2, 3, 4])] 30 =
      .error (.unknownLabel "cpu") ∧
    evaluate [("cpu", [1, 2, 3, 4])] [("intr", [5])] 30 =
      .error (.unknownLabel "cpu") :=
  ⟨get_total_contract.1 _ "cpu" [100, 0, 50, 800] rfl,
   get_total_contract.2.1 _ "cpu" rfl,
   get_total_contract.2.2.2.1 _ _ 30 rfl,
   get_total_contract.2.2.2.2 _ _ 30 [1, 2, 3, 4] rfl rfl⟩

/-- C7 counterexample: the label-only line `cpu` parses successfully into a
snapshot whose "cpu" row is empty, so a successfully constructed snapshot
does not satisfy the claimed every-label-maps-to-a-non-empty-row
invariant. -/
theorem parse_empty_row_example :
    pyParse ["cpu"] = .ok [("cpu", ([] : List Int))] := rfl

/-- C7 (amended): every snapshot successfully constructed by `parse` from a
source whose lines each carry at least one counter token (at least two
whitespace tokens) maps every present label to a non-empty row; and
independently of that restriction, a parse that succeeds had every
non-label token accepted by `int()` — any numeric parse failure invalidates
the whole snapshot rather than yielding a partial one. -/
theorem parse_snapshot_invariant :
    (∀ (lines : List String) (s : Stats),
        (∀ l ∈ lines, 2 ≤ (pySplit l).length) → pyParse lines = .ok s →
        ∀ lab row, dictGet s lab = some row → row ≠ []) ∧
    (∀ (lines : List String) (s : Stats), pyParse lines = .ok s →
        ∀ l ∈ lines, ∀ t ∈ (pySplit l).tail, ∃ v, pyInt t = some v) := by
  constructor
  · intro lines s hlen h
    refine pyParseGo_rows_nonempty lines [] s ?_ hlen h
    intro lab row hget
    cases hget
  · intro lines s h
    exact pyParseGo_ok_tokens lines [] s h

/-- C7 witness: on the source `cpu 1 2` the parsed row `[1, 2]` is non-empty
and each token was accepted by `int()`. -/
theorem parse_snapshot_invariant_inst :
    (([1, 2] : List Int) ≠ []) ∧ (∃ v, pyInt "2" = some v) :=
  ⟨parse_snapshot_invariant.1 ["cpu 1 2"] [("cpu", [1, 2])] (by decide) rfl
     "cpu" [1, 2] rfl,
   parse_snapshot_invariant.2 ["cpu 1 2"] [("cpu", [1, 2])] rfl
     "cpu 1 2" (by decide) "2" (by decide)⟩

/-- C8: for every well-formed counter source text (one row per line, first
token a label, remaining tokens non-negative decimal integers, labels
distinct), parsing succeeds and, for each label, re-serializing the parsed
row's integers in field order reconstructs exactly the original numeric
sequence of that label's line: the serialized tokens denote the same numbers
as the original tokens, which are the parsed row's values. -/
theorem parse_roundtrip (lines : List String)
    (hwf : ∀ l ∈ lines, ∃ lab toks, pySplit l = lab :: toks ∧
      ∀ t ∈ toks, specNonNegIntToken t = true)
    (hnd : (lines.map (fun l => (pySplit l).head?)).Nodup) :
    ∃ s : Stats, pyParse lines = .ok s ∧
      ∀ l ∈ lines, ∀ lab toks, pySplit l = lab :: toks →
        ∃ row : List Int, dictGet s lab = some row ∧
          (serializeRow row).map pyInt = toks.map pyInt ∧
          toks.map pyInt = row.map some := by
  obtain ⟨s, hgo, hmem, _⟩ := pyParseGo_roundtrip lines [] hwf hnd
  refine ⟨s, hgo, ?_⟩
  intro l hl lab toks hsp
  obtain ⟨lab', toks', hsp', hdig'⟩ := hwf l hl
  rw [hsp] at hsp'
  obtain ⟨he1, he2⟩ := List.cons.inj hsp'
  subst he1
  subst he2
  have hdig : ∀ t ∈ toks, specNonNegIntToken t = true := hdig'
  refine ⟨toks.map (fun t => ((tokNat t : Nat) : Int)),
    hmem l hl lab toks hsp, ?_, ?_⟩
  · unfold serializeRow
    rw [List.map_map, List.map_map]
    refine List.map_congr_left ?_
    intro t ht
    show pyInt (intSerialize ((tokNat t : Nat) : Int)) = pyInt t
    rw [pyInt_intSerialize_ofNat (tokNat t), pyInt_digit t (hdig t ht)]
  · rw [List.map_map]
    refine List.map_congr_left ?_
    intro t ht
    show pyInt t = some ((tokNat t : Nat) : Int)
    exact pyInt_digit t (hdig t ht)

/-- C8 witness: the two-line source `cpu 100 0 50 800` / `intr 5 6` parses
and round-trips per label. -/
theorem parse_roundtrip_inst :
    ∃ s : Stats, pyParse ["cpu 100 0 50 800", "intr 5 6"] = .ok s ∧
      ∀ l ∈ (["cpu 100 0 50 800", "intr 5 6"] : List String),
        ∀ lab toks, pySplit l = lab :: toks →
        ∃ row : List Int, dictGet s lab = some row ∧
          (serializeRow row).map pyInt = toks.map pyInt ∧
          toks.map pyInt = row.map some :=
  parse_roundtrip ["cpu 100 0 50 800", "intr 5 6"]
    (by
      intro l hl
      simp only [List.mem_cons, List.not_mem_nil, or_false] at hl
      rcases hl with rfl | rfl
      · exact ⟨"cpu", ["100", "0", "50", "800"], rfl, by decide⟩
      · exact ⟨"intr", ["5", "6"], rfl, by decide⟩)
    (by decide)

/-- C9: when the counter source cannot be opened (missing file) or read
(insufficient permission), `current_stats` fails with the
`SourceUnavailable` condition, which is a distinct error case from the
`MalformedCounterRow` parse failure; a readable source is parsed instead. -/
theorem current_stats_source_unavailable :
    (∀ e : ReadErr, current_stats (.error e) = .error (.sourceUnavailable e)) ∧
    (∀ (e : ReadErr) (t : String),
        Err.sourceUnavailable e ≠ Err.malformedCounterRow t) ∧
    (∀ lines : List String, current_stats (.ok lines) = pyParse lines) :=
  ⟨fun _ => rfl, fun _ _ h => Err.noConfusion h, fun _ => rfl⟩

/-- C9 witness: the two concrete read failures produce the two
`SourceUnavailable` diagnostics, distinct from a `MalformedCounterRow`. -/
theorem current_stats_source_unavailable_inst :
    current_stats (.error ReadErr.fileNotFound) =
      .error (.sourceUnavailable ReadErr.fileNotFound) ∧
    Err.sourceUnavailable ReadErr.permissionDenied ≠
      Err.malformedCounterRow "abc" :=
  ⟨current_stats_source_unavailable.1 ReadErr.fileNotFound,
   current_stats_source_unavailable.2.1 ReadErr.permissionDenied "abc"⟩

/-- C10: a readable source containing a line with zero whitespace tokens
(an empty line) makes the parse fail with the out-of-bounds indexing error
of `fields[0]`, a failure distinct from both `MalformedCounterRow` and
`SourceUnavailable`; and for every source in which each line has at least
one token, this label-extraction error is unreachable. -/
theorem parse_empty_line_index_error :
    pyParse [""] = .error Err.indexError ∧
    (∀ t : String, Err.indexError ≠ Err.malformedCounterRow t) ∧
    (∀ e : ReadErr, Err.indexError ≠ Err.sourceUnavailable e) ∧
    (∀ lines : List String, (∀ l ∈ lines, pySplit l ≠ []) →
        pyParse lines ≠ .error Err.indexError) :=
  ⟨rfl, fun _ h => Err.noConfusion h, fun _ h => Err.noConfusion h,
   fun lines hne => pyParseGo_no_indexError lines [] hne⟩

/-- C10 witness: a source whose single line has a label cannot produce the
label-extraction index error. -/
theorem parse_empty_line_index_error_inst :
    pyParse ["cpu 1 2"] ≠ .error Err.indexError :=
  parse_empty_line_index_error.2.2.2 ["cpu 1 2"] (by decide)

end DiskCpuLoad
